import Mathlib

/-!
Verification of the referral-tracker core (src/app.py).

The backing spreadsheet is modelled as a list of rows, each row a list of
string cells; row 0 is the header row, matching the 1-based gspread layout
where row 1 holds the headers.  Missing cells read as the empty string and
writing past the end of a row pads it with empty cells, matching sheet
semantics.  Transport-level failures of the store are out of scope; the
modelled failure modes are the explicit RecordNotFound / FieldNotFound
branches of update_cell_by_referral_id.
-/

namespace Referral

abbrev Row := List String

abbrev Table := List Row

/-- Read one cell of a row; absent cells are empty, as in a sheet. -/
def getCell (r : Row) (c : Nat) : String := r.getD c ""

/-- Write one cell of a row, padding with empty cells if the row is short,
as worksheet.update_cell does. -/
def setCell (r : Row) (c : Nat) (v : String) : Row :=
  (r ++ List.replicate (c + 1 - r.length) "").set c v

/-- Write one cell of the table (row i, column c). -/
def updTable (t : Table) (i c : Nat) (v : String) : Table :=
  t.set i (setCell (t.getD i []) c v)

/-- worksheet.col_values: the values of one column, top to bottom,
header included. -/
def colValues (t : Table) (c : Nat) : List String := t.map (fun r => getCell r c)

/-- worksheet.row_values(1): the header row. -/
def headers (t : Table) : List String := t.getD 0 []

inductive UpdateError where
  | recordNotFound
  | fieldNotFound
deriving DecidableEq, Repr

/-- update_cell_by_referral_id (app.py lines 61-90): scan column 1 for the
id, scan the header row for the column name, write the single cell at the
first matching row. -/
def update_cell_by_referral_id (t : Table) (referral_id column_name new_value : String) :
    Except UpdateError Table :=
  let referral_ids := colValues t 0
  if referral_id ∈ referral_ids then
    let row_index := referral_ids.indexOf referral_id
    let hs := headers t
    if column_name ∈ hs then
      let col_index := hs.indexOf column_name
      Except.ok (updTable t row_index col_index new_value)
    else Except.error UpdateError.fieldNotFound
  else Except.error UpdateError.recordNotFound

/-- Adapter state: the live table plus the st.cache_data read cache
(time the cache was filled, cached table). -/
structure StoreState where
  table : Table
  cache : Option (Nat × Table)
deriving DecidableEq

/-- load_data under st.cache_data with ttl 60: serve the cache while it is
fresh, otherwise read the table and refill the cache. -/
def load_data (s : StoreState) (now : Nat) : Table × StoreState :=
  match s.cache with
  | some (t0, cached) =>
      if now - t0 < 60 then (cached, s)
      else (s.table, { s with cache := some (now, s.table) })
  | none => (s.table, { s with cache := some (now, s.table) })

/-- append_data: append_row then st.cache_data.clear() on success. -/
def append_data (s : StoreState) (row_data : Row) : StoreState :=
  { table := s.table ++ [row_data], cache := none }

/-- update_cell_by_referral_id acting on the store: on success the cell is
written and the cache cleared; on failure nothing changes. -/
def update_store (s : StoreState) (referral_id column_name new_value : String) :
    Bool × StoreState :=
  match update_cell_by_referral_id s.table referral_id column_name new_value with
  | Except.ok t => (true, { table := t, cache := none })
  | Except.error _ => (false, s)

def applyAppends (s : StoreState) (rows : List Row) : StoreState :=
  rows.foldl append_data s

/-- Calendar date, as produced by the date-of-birth picker. -/
structure Date where
  year : Nat
  month : Nat
  day : Nat
deriving DecidableEq

def pad2 (n : Nat) : String := if n < 10 then "0" ++ toString n else toString n

def pad4 (n : Nat) : String :=
  if n < 10 then "000" ++ toString n
  else if n < 100 then "00" ++ toString n
  else if n < 1000 then "0" ++ toString n
  else toString n

/-- strftime of a date with the YYYY-MM-DD pattern. -/
def Date.format (d : Date) : String :=
  pad4 d.year ++ "-" ++ pad2 d.month ++ "-" ++ pad2 d.day

structure DateTime where
  date : Date
  hour : Nat
  minute : Nat
  second : Nat
deriving DecidableEq

/-- strftime of a timestamp with the YYYY-MM-DD HH:MM:SS pattern. -/
def DateTime.format (dt : DateTime) : String :=
  dt.date.format ++ " " ++ pad2 dt.hour ++ ":" ++ pad2 dt.minute ++ ":" ++ pad2 dt.second

/-- The inputs of the PHC referral form.  The date picker starts at None,
so the date of birth is optional until validation. -/
structure SubmitInput where
  patient_name : String
  patient_dob : Option Date
  patient_gender : String
  patient_contact : String
  referring_phc : String
  referring_doctor : String
  diagnosis : String
deriving DecidableEq

/-- The validation gate (app.py line 132): all of name, dob, a gender other
than the Select placeholder, PHC, diagnosis and doctor must be present. -/
def validSubmission (i : SubmitInput) : Bool :=
  (i.patient_name != "") && i.patient_dob.isSome && (i.patient_gender != "Select") &&
  (i.referring_phc != "") && (i.diagnosis != "") && (i.referring_doctor != "")

/-- The required-field labels listed by the validation error message
(app.py line 133). -/
def requiredFieldLabels : List String :=
  ["Patient Name", "Date of Birth", "Gender", "Referring PHC", "Diagnosis",
   "Referring Doctor"]

inductive SubmitResult where
  | validationError (requiredFields : List String)
  | ok (row : Row)
deriving DecidableEq

/-- row_data (app.py lines 139-153): the 13 cells appended for a referral,
in sheet-header order. -/
def row_data (referral_id : String) (i : SubmitInput) (dob : Date)
    (referral_datetime : String) : Row :=
  [referral_id, i.patient_name, dob.format, i.patient_gender, i.patient_contact,
   i.referring_phc, referral_datetime, i.diagnosis, i.referring_doctor,
   "No", "", "", ""]

/-- The submit flow: validate, then build the row and call append once.
The second component is the list of append calls issued. -/
def phc_referral_form (referral_id referral_datetime : String) (i : SubmitInput) :
    SubmitResult × List Row :=
  if validSubmission i then
    match i.patient_dob with
    | some dob =>
        let row := row_data referral_id i dob referral_datetime
        (SubmitResult.ok row, [row])
    | none => (SubmitResult.validationError requiredFieldLabels, [])
  else (SubmitResult.validationError requiredFieldLabels, [])

/-- The sheet header row (app.py append order and §6 of the spec). -/
def standardHeaders : List String :=
  ["Referral ID", "Patient Name", "Date of Birth", "Gender", "Patient Contact",
   "Referring PHC", "Date/Time of Referral", "Diagnosis/Reason for Referral",
   "Referring Doctor", "Gbagada Acknowledged", "Date/Time of Presentation",
   "Acknowledged By", "Gbagada Notes"]

/-- A record field looked up by column name, as a pandas frame keyed by the
header row does. -/
def getField (hs : List String) (r : Row) (name : String) : String :=
  getCell r (hs.indexOf name)

/-- The data rows of the table (everything below the header). -/
def dataRows (t : Table) : List Row := t.drop 1

/-- unacknowledged_df (app.py line 175). -/
def unacknowledged_df (hs : List String) (rows : List Row) : List Row :=
  rows.filter (fun r => getField hs r "Gbagada Acknowledged" == "No")

/-- acknowledged_df (app.py line 176). -/
def acknowledged_df (hs : List String) (rows : List Row) : List Row :=
  rows.filter (fun r => getField hs r "Gbagada Acknowledged" == "Yes")

/-- The Referral IDs offered by the acknowledgment selectbox
(app.py line 194): ids of the pending rows. -/
def pendingIds (hs : List String) (rows : List Row) : List String :=
  (unacknowledged_df hs rows).map (fun r => getField hs r "Referral ID")

/-- get_all_records: each data row as a list of header/value pairs. -/
def mkRecord (hs : List String) (r : Row) : List (String × String) :=
  hs.enum.map (fun p => (p.2, getCell r p.1))

def get_all_records (t : Table) : List (List (String × String)) :=
  (dataRows t).map (mkRecord (headers t))

inductive AckResult where
  | missingFields
  | success
  | failure
deriving DecidableEq

/-- The four update calls issued by the acknowledge form (app.py lines
231-234), as (referral id, column name, value) triples. -/
def ackCalls (referral_id time_of_presentation acknowledged_by gbagada_notes : String) :
    List (String × String × String) :=
  [(referral_id, "Gbagada Acknowledged", "Yes"),
   (referral_id, "Date/Time of Presentation", time_of_presentation),
   (referral_id, "Acknowledged By", acknowledged_by),
   (referral_id, "Gbagada Notes", gbagada_notes)]

/-- One acknowledge-flow update call: run it on the current table and
record its success flag. -/
def runStep (acc : Table × List Bool) (c : String × String × String) :
    Table × List Bool :=
  match update_cell_by_referral_id acc.1 c.1 c.2.1 c.2.2 with
  | Except.ok t2 => (t2, acc.2 ++ [true])
  | Except.error _ => (acc.1, acc.2 ++ [false])

/-- Run a sequence of update calls against the table, each on the table
left by the previous one, collecting each success flag. -/
def runUpdates (t : Table) (calls : List (String × String × String)) :
    Table × List Bool :=
  calls.foldl runStep (t, [])

structure AckOutcome where
  result : AckResult
  table : Table
  calls : List (String × String × String)
  flags : List Bool
deriving DecidableEq

/-- The acknowledge form (app.py lines 225-240): require the presentation
time and the acknowledging staff name, then issue the four updates in
order and report success exactly when all four succeeded. -/
def acknowledge_form (t : Table) (referral_id time_of_presentation acknowledged_by
    gbagada_notes : String) : AckOutcome :=
  if time_of_presentation = "" ∨ acknowledged_by = "" then
    { result := AckResult.missingFields, table := t, calls := [], flags := [] }
  else
    let cs := ackCalls referral_id time_of_presentation acknowledged_by gbagada_notes
    let r := runUpdates t cs
    { result := if r.2.all (fun b => b) then AckResult.success else AckResult.failure,
      table := r.1, calls := cs, flags := r.2 }

/-- One user interaction, as generated by the two flows: a validated
submission appends its row; an acknowledgment of an id offered by the
pending selectbox runs the acknowledge form. -/
inductive Step : Table → Table → Prop where
  | submit (t : Table) (referral_id referral_datetime : String) (i : SubmitInput)
      (row : Row)
      (h : phc_referral_form referral_id referral_datetime i = (SubmitResult.ok row, [row])) :
      Step t (t ++ [row])
  | ack (t : Table) (referral_id time_of_presentation acknowledged_by gbagada_notes : String)
      (hsel : referral_id ∈ pendingIds (headers t) (dataRows t)) :
      Step t (acknowledge_form t referral_id time_of_presentation acknowledged_by
        gbagada_notes).table

/-- A concrete pending referral row, used to instantiate theorems. -/
def sampleRow : Row :=
  ["abc-123", "Jane Doe", "1990-01-01", "Female", "08000000000", "Ketu PHC",
   "2024-01-01 09:00:00", "Fever", "Dr. B", "No", "", "", ""]

/-- A concrete table: the header row plus one pending referral. -/
def sampleTable : Table := [standardHeaders, sampleRow]

/-- A concrete valid submission (the Jane Doe scenario of §8). -/
def sampleInput : SubmitInput :=
  { patient_name := "Jane Doe"
    patient_dob := some { year := 1990, month := 1, day := 1 }
    patient_gender := "Female"
    patient_contact := "08000000000"
    referring_phc := "Ketu PHC"
    referring_doctor := "Dr. B"
    diagnosis := "Fever" }

/-- A submission misses a required input when any of the six required
fields is absent (empty string, no date, or the Select placeholder). -/
def missingRequired (i : SubmitInput) : Prop :=
  i.patient_name = "" ∨ i.patient_dob = none ∨ i.patient_gender = "Select" ∨
  i.referring_phc = "" ∨ i.diagnosis = "" ∨ i.referring_doctor = ""

/-- A concrete submission with an empty diagnosis (the §8 scenario). -/
def emptyDiagnosisInput : SubmitInput :=
  { sampleInput with diagnosis := "" }

/-- A row whose acknowledged field holds neither No nor Yes. -/
def strayRow : Row :=
  ["id-9", "John Roe", "1985-05-05", "Male", "", "Ojota PHC",
   "2024-02-02 08:00:00", "Cough", "Dr. C", "Maybe", "", "", ""]

/-- The flag list of a call sequence that stops at the first failure: a
failed call is the last call executed. -/
def stopsAtFirstFailure (flags : List Bool) : Prop :=
  ∀ i, i < flags.length → flags.getD i true = false → flags.length = i + 1

/-- A table whose header lacks the Gbagada Acknowledged column, so the
first acknowledge-flow update fails while the later ones can succeed. -/
def brokenHeaderTable : Table :=
  [["Referral ID", "Date/Time of Presentation", "Acknowledged By", "Gbagada Notes"],
   ["abc-123", "", "", ""]]

/-- A table holding the same referral id in two data rows. -/
def dupTable : Table :=
  [standardHeaders,
   ["dup-1", "First Patient", "1990-01-01", "Male", "", "Ketu PHC",
    "2024-01-01 09:00:00", "Fever", "Dr. B", "No", "", "", ""],
   ["dup-1", "Second Patient", "1991-02-02", "Female", "", "Ojota PHC",
    "2024-01-02 09:00:00", "Cough", "Dr. C", "No", "", "", ""]]

/-- A concrete referral timestamp. -/
def sampleStamp : DateTime :=
  { date := { year := 2024, month := 1, day := 1 }, hour := 9, minute := 0, second := 0 }

/-- C2: a submission that passes validation issues exactly one append call,
whose row has exactly 13 fields in header order, field 10 equal to No and
fields 11 to 13 empty. -/
theorem submit_appends_once (referral_id referral_datetime : String) (i : SubmitInput)
    (hv : validSubmission i = true) :
    ∃ dob, i.patient_dob = some dob ∧
      phc_referral_form referral_id referral_datetime i =
        (SubmitResult.ok (row_data referral_id i dob referral_datetime),
         [row_data referral_id i dob referral_datetime]) ∧
      row_data referral_id i dob referral_datetime =
        [referral_id, i.patient_name, dob.format, i.patient_gender, i.patient_contact,
         i.referring_phc, referral_datetime, i.diagnosis, i.referring_doctor,
         "No", "", "", ""] ∧
      (row_data referral_id i dob referral_datetime).length = 13 ∧
      (row_data referral_id i dob referral_datetime).getD 9 "" = "No" ∧
      (row_data referral_id i dob referral_datetime).getD 10 "" = "" ∧
      (row_data referral_id i dob referral_datetime).getD 11 "" = "" ∧
      (row_data referral_id i dob referral_datetime).getD 12 "" = "" := by
  have hsome : i.patient_dob.isSome = true := by
    have := hv
    unfold validSubmission at this
    simp only [Bool.and_eq_true] at this
    exact this.1.1.1.1.2
  obtain ⟨dob, hdob⟩ := Option.isSome_iff_exists.mp hsome
  refine ⟨dob, hdob, ?_, rfl, rfl, rfl, rfl, rfl, rfl⟩
  unfold phc_referral_form
  rw [hv, hdob]
  simp

/-- C2 witness: the theorem applied to the Jane Doe submission. -/
theorem submit_appends_once_witness :
    validSubmission sampleInput = true ∧
    (∃ dob, sampleInput.patient_dob = some dob ∧
      phc_referral_form "abc-123" "2024-01-01 09:00:00" sampleInput =
        (SubmitResult.ok (row_data "abc-123" sampleInput dob "2024-01-01 09:00:00"),
         [row_data "abc-123" sampleInput dob "2024-01-01 09:00:00"]) ∧
      row_data "abc-123" sampleInput dob "2024-01-01 09:00:00" =
        ["abc-123", sampleInput.patient_name, dob.format, sampleInput.patient_gender,
         sampleInput.patient_contact, sampleInput.referring_phc, "2024-01-01 09:00:00",
         sampleInput.diagnosis, sampleInput.referring_doctor, "No", "", "", ""] ∧
      (row_data "abc-123" sampleInput dob "2024-01-01 09:00:00").length = 13 ∧
      (row_data "abc-123" sampleInput dob "2024-01-01 09:00:00").getD 9 "" = "No" ∧
      (row_data "abc-123" sampleInput dob "2024-01-01 09:00:00").getD 10 "" = "" ∧
      (row_data "abc-123" sampleInput dob "2024-01-01 09:00:00").getD 11 "" = "" ∧
      (row_data "abc-123" sampleInput dob "2024-01-01 09:00:00").getD 12 "" = "") :=
  ⟨by decide, submit_appends_once "abc-123" "2024-01-01 09:00:00" sampleInput (by decide)⟩

/-- C6: a submission with a missing required input yields the validation
error listing the required fields (the missing one among them), issues no
append call, and leaves the store unchanged. -/
theorem submit_missing_field (referral_id referral_datetime : String) (i : SubmitInput)
    (hm : missingRequired i) :
    phc_referral_form referral_id referral_datetime i =
      (SubmitResult.validationError requiredFieldLabels, []) ∧
    (i.patient_name = "" → "Patient Name" ∈ requiredFieldLabels) ∧
    (i.patient_dob = none → "Date of Birth" ∈ requiredFieldLabels) ∧
    (i.patient_gender = "Select" → "Gender" ∈ requiredFieldLabels) ∧
    (i.referring_phc = "" → "Referring PHC" ∈ requiredFieldLabels) ∧
    (i.diagnosis = "" → "Diagnosis" ∈ requiredFieldLabels) ∧
    (i.referring_doctor = "" → "Referring Doctor" ∈ requiredFieldLabels) ∧
    (∀ s : StoreState, applyAppends s (phc_referral_form referral_id referral_datetime i).2 = s) := by
  have hv : validSubmission i = false := by
    unfold validSubmission
    rcases hm with h | h | h | h | h | h <;>
      simp [h, Bool.and_eq_false_iff]
  have hform : phc_referral_form referral_id referral_datetime i =
      (SubmitResult.validationError requiredFieldLabels, []) := by
    unfold phc_referral_form
    rw [hv]
    simp
  refine ⟨hform, ?_, ?_, ?_, ?_, ?_, ?_, ?_⟩
  · intro _; unfold requiredFieldLabels; simp
  · intro _; unfold requiredFieldLabels; simp
  · intro _; unfold requiredFieldLabels; simp
  · intro _; unfold requiredFieldLabels; simp
  · intro _; unfold requiredFieldLabels; simp
  · intro _; unfold requiredFieldLabels; simp
  · intro s
    rw [hform]
    rfl

/-- C6 witness: the theorem applied to the empty-diagnosis submission. -/
theorem submit_missing_field_witness :
    missingRequired emptyDiagnosisInput ∧
    (phc_referral_form "id-1" "2024-01-01 09:00:00" emptyDiagnosisInput =
      (SubmitResult.validationError requiredFieldLabels, []) ∧
    (emptyDiagnosisInput.patient_name = "" → "Patient Name" ∈ requiredFieldLabels) ∧
    (emptyDiagnosisInput.patient_dob = none → "Date of Birth" ∈ requiredFieldLabels) ∧
    (emptyDiagnosisInput.patient_gender = "Select" → "Gender" ∈ requiredFieldLabels) ∧
    (emptyDiagnosisInput.referring_phc = "" → "Referring PHC" ∈ requiredFieldLabels) ∧
    (emptyDiagnosisInput.diagnosis = "" → "Diagnosis" ∈ requiredFieldLabels) ∧
    (emptyDiagnosisInput.referring_doctor = "" → "Referring Doctor" ∈ requiredFieldLabels) ∧
    (∀ s : StoreState,
      applyAppends s (phc_referral_form "id-1" "2024-01-01 09:00:00" emptyDiagnosisInput).2 = s)) :=
  ⟨by right; right; right; right; left; rfl,
   submit_missing_field "id-1" "2024-01-01 09:00:00" emptyDiagnosisInput
     (by right; right; right; right; left; rfl)⟩

/-- C5: an id absent from the identifier column makes update_cell fail
with RecordNotFound, and the store (table and cache alike) is exactly as
before the call. -/
theorem update_absent_id (t : Table) (referral_id column_name new_value : String)
    (h : referral_id ∉ colValues t 0) :
    update_cell_by_referral_id t referral_id column_name new_value =
      Except.error UpdateError.recordNotFound ∧
    ∀ s : StoreState, s.table = t →
      update_store s referral_id column_name new_value = (false, s) := by
  have hupd : update_cell_by_referral_id t referral_id column_name new_value =
      Except.error UpdateError.recordNotFound := by
    unfold update_cell_by_referral_id
    simp [h]
  refine ⟨hupd, ?_⟩
  intro s hs
  unfold update_store
  rw [hs, hupd]

/-- C5 witness: the theorem applied to an id absent from the sample table. -/
theorem update_absent_id_witness :
    "ghost-id" ∉ colValues sampleTable 0 ∧
    (update_cell_by_referral_id sampleTable "ghost-id" "Gbagada Acknowledged" "Yes" =
      Except.error UpdateError.recordNotFound ∧
    ∀ s : StoreState, s.table = sampleTable →
      update_store s "ghost-id" "Gbagada Acknowledged" "Yes" = (false, s)) :=
  ⟨by decide, update_absent_id sampleTable "ghost-id" "Gbagada Acknowledged" "Yes" (by decide)⟩

/-- C9: a successful append clears the read cache, so any later load_data
returns the appended table whatever the cache age was; likewise a
successful update_cell makes any later load_data return the updated
table. -/
theorem write_invalidates_cache (s : StoreState) (row : Row)
    (referral_id column_name new_value : String) (now now2 : Nat)
    (hupd : (update_store s referral_id column_name new_value).1 = true) :
    (load_data (append_data s row) now).1 = (append_data s row).table ∧
    (load_data (append_data s row) now).1 = s.table ++ [row] ∧
    (load_data (update_store s referral_id column_name new_value).2 now2).1 =
      (update_store s referral_id column_name new_value).2.table := by
  refine ⟨rfl, rfl, ?_⟩
  unfold update_store at hupd ⊢
  cases hrun : update_cell_by_referral_id s.table referral_id column_name new_value with
  | ok t => rfl
  | error e =>
      rw [hrun] at hupd
      simp at hupd

/-- C9 witness: the theorem applied to a store whose cache is stale-free
fresh, with a successful update of the sample table. -/
theorem write_invalidates_cache_witness :
    (update_store { table := sampleTable, cache := some (0, []) }
        "abc-123" "Gbagada Notes" "seen").1 = true ∧
    ((load_data (append_data { table := sampleTable, cache := some (0, []) } sampleRow) 5).1 =
      (append_data { table := sampleTable, cache := some (0, []) } sampleRow).table ∧
    (load_data (append_data { table := sampleTable, cache := some (0, []) } sampleRow) 5).1 =
      sampleTable ++ [sampleRow] ∧
    (load_data (update_store { table := sampleTable, cache := some (0, []) }
        "abc-123" "Gbagada Notes" "seen").2 5).1 =
      (update_store { table := sampleTable, cache := some (0, []) }
        "abc-123" "Gbagada Notes" "seen").2.table) :=
  ⟨by decide,
   write_invalidates_cache { table := sampleTable, cache := some (0, []) } sampleRow
     "abc-123" "Gbagada Notes" "seen" 5 5 (by decide)⟩

/-- C1 counterexample: a record whose acknowledged field is Maybe is a
record of the table read by the dashboard yet belongs to neither the
pending nor the acknowledged set, so the partition is not exhaustive. -/
theorem partition_counterexample :
    strayRow ∈ dataRows [standardHeaders, strayRow] ∧
    strayRow ∉ unacknowledged_df standardHeaders (dataRows [standardHeaders, strayRow]) ∧
    strayRow ∉ acknowledged_df standardHeaders (dataRows [standardHeaders, strayRow]) := by
  decide

/-- C1 amended: membership in each set is determined solely by the
acknowledged field (pending iff No, acknowledged iff Yes), so no record is
in both sets, and a record is in one of the two sets precisely when its
acknowledged field is No or Yes; a record with any other value is in
neither. -/
theorem partition_amended (hs : List String) (rows : List Row) (r : Row)
    (hr : r ∈ rows) :
    (r ∈ unacknowledged_df hs rows ↔ getField hs r "Gbagada Acknowledged" = "No") ∧
    (r ∈ acknowledged_df hs rows ↔ getField hs r "Gbagada Acknowledged" = "Yes") ∧
    ¬ (r ∈ unacknowledged_df hs rows ∧ r ∈ acknowledged_df hs rows) ∧
    ((r ∈ unacknowledged_df hs rows ∨ r ∈ acknowledged_df hs rows) ↔
      (getField hs r "Gbagada Acknowledged" = "No" ∨
       getField hs r "Gbagada Acknowledged" = "Yes")) := by
  have hu : r ∈ unacknowledged_df hs rows ↔ getField hs r "Gbagada Acknowledged" = "No" := by
    unfold unacknowledged_df
    rw [List.mem_filter]
    simp [hr]
  have ha : r ∈ acknowledged_df hs rows ↔ getField hs r "Gbagada Acknowledged" = "Yes" := by
    unfold acknowledged_df
    rw [List.mem_filter]
    simp [hr]
  refine ⟨hu, ha, ?_, ?_⟩
  · rintro ⟨h1, h2⟩
    rw [hu] at h1
    rw [ha] at h2
    rw [h1] at h2
    exact absurd h2 (by decide)
  · rw [hu, ha]

/-- C1 witness: the amended partition at the sample pending record. -/
theorem partition_amended_witness :
    sampleRow ∈ dataRows sampleTable ∧
    ((sampleRow ∈ unacknowledged_df standardHeaders (dataRows sampleTable) ↔
        getField standardHeaders sampleRow "Gbagada Acknowledged" = "No") ∧
    (sampleRow ∈ acknowledged_df standardHeaders (dataRows sampleTable) ↔
        getField standardHeaders sampleRow "Gbagada Acknowledged" = "Yes") ∧
    ¬ (sampleRow ∈ unacknowledged_df standardHeaders (dataRows sampleTable) ∧
        sampleRow ∈ acknowledged_df standardHeaders (dataRows sampleTable)) ∧
    ((sampleRow ∈ unacknowledged_df standardHeaders (dataRows sampleTable) ∨
        sampleRow ∈ acknowledged_df standardHeaders (dataRows sampleTable)) ↔
      (getField standardHeaders sampleRow "Gbagada Acknowledged" = "No" ∨
       getField standardHeaders sampleRow "Gbagada Acknowledged" = "Yes"))) :=
  ⟨by decide, partition_amended standardHeaders (dataRows sampleTable) sampleRow (by decide)⟩

/-- A single acknowledge-flow step adds exactly one flag. -/
theorem runStep_flags_length (acc : Table × List Bool) (c : String × String × String) :
    (runStep acc c).2.length = acc.2.length + 1 := by
  unfold runStep
  cases update_cell_by_referral_id acc.1 c.1 c.2.1 c.2.2 <;> simp

/-- The flag list of runUpdates has one entry per call. -/
theorem runUpdates_flags_length (calls : List (String × String × String)) (t : Table) :
    (runUpdates t calls).2.length = calls.length := by
  suffices h : ∀ acc : Table × List Bool,
      (calls.foldl runStep acc).2.length = acc.2.length + calls.length by
    have := h (t, [])
    simpa [runUpdates] using this
  induction calls with
  | nil => intro acc; simp
  | cons c cs ih =>
      intro acc
      simp only [List.foldl_cons]
      rw [ih (runStep acc c), runStep_flags_length]
      simp only [List.length_cons]
      omega

/-- A length-4 Bool list is all true exactly when it is four trues. -/
theorem all_four_true (l : List Bool) (hl : l.length = 4) :
    (l.all (fun b => b) = true ↔ l = [true, true, true, true]) := by
  match l, hl with
  | [a, b, c, d], _ => cases a <;> cases b <;> cases c <;> cases d <;> simp

/-- C3: acknowledging a selected pending id with non-empty presentation
time and staff name issues exactly the four update calls, all against that
id (acknowledged set to Yes plus the three acknowledgment fields), and the
flow reports success exactly when all four calls succeeded. -/
theorem ack_four_calls (t : Table)
    (referral_id time_of_presentation acknowledged_by gbagada_notes : String)
    (hsel : referral_id ∈ pendingIds (headers t) (dataRows t))
    (hp : time_of_presentation ≠ "") (hb : acknowledged_by ≠ "") :
    (acknowledge_form t referral_id time_of_presentation acknowledged_by gbagada_notes).calls =
      [(referral_id, "Gbagada Acknowledged", "Yes"),
       (referral_id, "Date/Time of Presentation", time_of_presentation),
       (referral_id, "Acknowledged By", acknowledged_by),
       (referral_id, "Gbagada Notes", gbagada_notes)] ∧
    (acknowledge_form t referral_id time_of_presentation acknowledged_by gbagada_notes).calls.length = 4 ∧
    (∀ c ∈ (acknowledge_form t referral_id time_of_presentation acknowledged_by gbagada_notes).calls,
      c.1 = referral_id) ∧
    (acknowledge_form t referral_id time_of_presentation acknowledged_by gbagada_notes).flags.length = 4 ∧
    ((acknowledge_form t referral_id time_of_presentation acknowledged_by gbagada_notes).result =
        AckResult.success ↔
      (acknowledge_form t referral_id time_of_presentation acknowledged_by gbagada_notes).flags =
        [true, true, true, true]) := by
  have hgate : ¬ (time_of_presentation = "" ∨ acknowledged_by = "") := by
    rintro (h | h)
    · exact hp h
    · exact hb h
  have hform : acknowledge_form t referral_id time_of_presentation acknowledged_by gbagada_notes =
      { result :=
          if (runUpdates t (ackCalls referral_id time_of_presentation acknowledged_by gbagada_notes)).2.all
              (fun b => b) then AckResult.success else AckResult.failure,
        table := (runUpdates t (ackCalls referral_id time_of_presentation acknowledged_by gbagada_notes)).1,
        calls := ackCalls referral_id time_of_presentation acknowledged_by gbagada_notes,
        flags := (runUpdates t (ackCalls referral_id time_of_presentation acknowledged_by gbagada_notes)).2 } := by
    unfold acknowledge_form
    rw [if_neg hgate]
  have hlen : (runUpdates t (ackCalls referral_id time_of_presentation acknowledged_by gbagada_notes)).2.length = 4 := by
    rw [runUpdates_flags_length]
    rfl
  rw [hform]
  refine ⟨rfl, rfl, ?_, hlen, ?_⟩
  · intro c hc
    simp only [ackCalls, List.mem_cons, List.not_mem_nil, or_false] at hc
    rcases hc with h | h | h | h <;> rw [h]
  · have hall := all_four_true _ hlen
    constructor
    · intro hres
      rw [← hall]
      by_contra hfalse
      simp only [hfalse, if_false] at hres
      exact absurd hres (by decide)
    · intro hflags
      rw [if_pos (hall.mpr hflags)]

/-- C3 witness: the theorem applied to the sample table and the §8
acknowledgment scenario. -/
theorem ack_four_calls_witness :
    "abc-123" ∈ pendingIds (headers sampleTable) (dataRows sampleTable) ∧
    "2024-01-01 10:00:00" ≠ "" ∧ "Nurse A" ≠ "" ∧
    ((acknowledge_form sampleTable "abc-123" "2024-01-01 10:00:00" "Nurse A" "fine").calls =
      [("abc-123", "Gbagada Acknowledged", "Yes"),
       ("abc-123", "Date/Time of Presentation", "2024-01-01 10:00:00"),
       ("abc-123", "Acknowledged By", "Nurse A"),
       ("abc-123", "Gbagada Notes", "fine")] ∧
    (acknowledge_form sampleTable "abc-123" "2024-01-01 10:00:00" "Nurse A" "fine").calls.length = 4 ∧
    (∀ c ∈ (acknowledge_form sampleTable "abc-123" "2024-01-01 10:00:00" "Nurse A" "fine").calls,
      c.1 = "abc-123") ∧
    (acknowledge_form sampleTable "abc-123" "2024-01-01 10:00:00" "Nurse A" "fine").flags.length = 4 ∧
    ((acknowledge_form sampleTable "abc-123" "2024-01-01 10:00:00" "Nurse A" "fine").result =
        AckResult.success ↔
      (acknowledge_form sampleTable "abc-123" "2024-01-01 10:00:00" "Nurse A" "fine").flags =
        [true, true, true, true])) :=
  ⟨by decide, by decide, by decide,
   ack_four_calls sampleTable "abc-123" "2024-01-01 10:00:00" "Nurse A" "fine"
     (by decide) (by decide) (by decide)⟩

/-- C4 counterexample: on a table missing the acknowledged column, the
first update call fails (FieldNotFound) yet the remaining three calls are
still executed, succeed, and mutate the store, so a failure does not stop
the remaining steps. -/
theorem ack_stops_counterexample :
    (acknowledge_form brokenHeaderTable "abc-123" "2024-01-01 10:00:00" "Nurse A" "ok").flags =
      [false, true, true, true] ∧
    ¬ stopsAtFirstFailure
        (acknowledge_form brokenHeaderTable "abc-123" "2024-01-01 10:00:00" "Nurse A" "ok").flags ∧
    (acknowledge_form brokenHeaderTable "abc-123" "2024-01-01 10:00:00" "Nurse A" "ok").table ≠
      brokenHeaderTable := by
  refine ⟨by decide, ?_, by decide⟩
  intro h
  have h0 := h 0 (by decide) (by decide)
  exact absurd h0 (by decide)

/-- C4 amended: a failed update call does not stop the remaining calls.
Whenever the acknowledge form runs (non-empty presentation time and staff
name), all four calls are executed — one flag per call, regardless of any
failure — and the flow reports failure whenever any of them failed. -/
theorem ack_runs_all_four (t : Table)
    (referral_id time_of_presentation acknowledged_by gbagada_notes : String)
    (hp : time_of_presentation ≠ "") (hb : acknowledged_by ≠ "") :
    (acknowledge_form t referral_id time_of_presentation acknowledged_by gbagada_notes).flags.length = 4 ∧
    (false ∈ (acknowledge_form t referral_id time_of_presentation acknowledged_by gbagada_notes).flags →
      (acknowledge_form t referral_id time_of_presentation acknowledged_by gbagada_notes).result =
        AckResult.failure) := by
  have hgate : ¬ (time_of_presentation = "" ∨ acknowledged_by = "") := by
    rintro (h | h)
    · exact hp h
    · exact hb h
  have hform : acknowledge_form t referral_id time_of_presentation acknowledged_by gbagada_notes =
      { result :=
          if (runUpdates t (ackCalls referral_id time_of_presentation acknowledged_by gbagada_notes)).2.all
              (fun b => b) then AckResult.success else AckResult.failure,
        table := (runUpdates t (ackCalls referral_id time_of_presentation acknowledged_by gbagada_notes)).1,
        calls := ackCalls referral_id time_of_presentation acknowledged_by gbagada_notes,
        flags := (runUpdates t (ackCalls referral_id time_of_presentation acknowledged_by gbagada_notes)).2 } := by
    unfold acknowledge_form
    rw [if_neg hgate]
  rw [hform]
  refine ⟨?_, ?_⟩
  · rw [runUpdates_flags_length]
    rfl
  · intro hmem
    have hall : (runUpdates t (ackCalls referral_id time_of_presentation acknowledged_by
        gbagada_notes)).2.all (fun b => b) = false := by
      rw [List.all_eq_false]
      exact ⟨false, hmem, by decide⟩
    simp only [hall]
    rfl

/-- C4 amended witness: the theorem applied to the broken-header table,
where the first call indeed fails and yet four flags are produced and the
flow reports failure. -/
theorem ack_runs_all_four_witness :
    "2024-01-01 10:00:00" ≠ "" ∧ "Nurse A" ≠ "" ∧
    ((acknowledge_form brokenHeaderTable "abc-123" "2024-01-01 10:00:00" "Nurse A" "ok").flags.length = 4 ∧
    (false ∈ (acknowledge_form brokenHeaderTable "abc-123" "2024-01-01 10:00:00" "Nurse A" "ok").flags →
      (acknowledge_form brokenHeaderTable "abc-123" "2024-01-01 10:00:00" "Nurse A" "ok").result =
        AckResult.failure)) :=
  ⟨by decide, by decide,
   ack_runs_all_four brokenHeaderTable "abc-123" "2024-01-01 10:00:00" "Nurse A" "ok"
     (by decide) (by decide)⟩

/-! Cell-level lemmas about setCell, updTable, colValues and indexOf. -/

theorem set_getD_self {α : Type} (l : List α) (i : Nat) (d : α) (h : i < l.length) :
    l.set i (l.getD i d) = l := by
  apply List.ext_getElem?
  intro j
  by_cases hij : i = j
  · subst hij
    rw [List.getElem?_set_self h, List.getD_eq_getElem?_getD, List.getElem?_eq_getElem h]
    rfl
  · rw [List.getElem?_set_ne hij]

theorem getCell_append_replicate (r : Row) (m c : Nat) :
    getCell (r ++ List.replicate m "") c = getCell r c := by
  induction r generalizing c with
  | nil =>
      simp only [List.nil_append]
      unfold getCell
      rw [List.getD_eq_getElem?_getD, List.getElem?_replicate]
      by_cases h : c < m <;> simp [h]
  | cons a r ih =>
      cases c with
      | zero => rfl
      | succ c =>
          simp only [List.cons_append, getCell, List.getD_cons_succ]
          exact ih c

theorem pad_length_lt (r : Row) (c : Nat) :
    c < (r ++ List.replicate (c + 1 - r.length) "").length := by
  simp only [List.length_append, List.length_replicate]
  omega

theorem getCell_setCell_eq (r : Row) (c : Nat) (v : String) :
    getCell (setCell r c v) c = v := by
  unfold setCell getCell
  rw [List.getD_eq_getElem?_getD, List.getElem?_set_self (pad_length_lt r c)]
  rfl

theorem getCell_setCell_ne (r : Row) (c : Nat) (v : String) (c' : Nat) (h : c' ≠ c) :
    getCell (setCell r c v) c' = getCell r c' := by
  unfold setCell
  have hstep : getCell ((r ++ List.replicate (c + 1 - r.length) "").set c v) c' =
      getCell (r ++ List.replicate (c + 1 - r.length) "") c' := by
    unfold getCell
    rw [List.getD_eq_getElem?_getD, List.getD_eq_getElem?_getD,
      List.getElem?_set_ne (fun he => h he.symm)]
  rw [hstep, getCell_append_replicate]

theorem updTable_getD_ne (t : Table) (i c : Nat) (v : String) (j : Nat) (h : j ≠ i) :
    (updTable t i c v).getD j [] = t.getD j [] := by
  unfold updTable
  rw [List.getD_eq_getElem?_getD, List.getD_eq_getElem?_getD,
    List.getElem?_set_ne (fun he => h he.symm)]
  rw [List.getD_eq_getElem?_getD]

theorem updTable_getD_self (t : Table) (i c : Nat) (v : String) (h : i < t.length) :
    (updTable t i c v).getD i [] = setCell (t.getD i []) c v := by
  unfold updTable
  rw [List.getD_eq_getElem?_getD, List.getElem?_set_self h]
  rfl

theorem headers_updTable (t : Table) (i c : Nat) (v : String) (h : 1 ≤ i) :
    headers (updTable t i c v) = headers t := by
  unfold headers
  exact updTable_getD_ne t i c v 0 (by omega)

theorem length_updTable (t : Table) (i c : Nat) (v : String) :
    (updTable t i c v).length = t.length := by
  unfold updTable
  rw [List.length_set]

theorem colValues_getD (t : Table) (j : Nat) :
    (colValues t 0).getD j "" = getCell (t.getD j []) 0 := by
  induction t generalizing j with
  | nil => cases j <;> rfl
  | cons r t ih =>
      cases j with
      | zero => rfl
      | succ j =>
          simp only [colValues, List.map_cons, List.getD_cons_succ]
          exact ih j

theorem colValues_length (t : Table) : (colValues t 0).length = t.length := by
  unfold colValues
  rw [List.length_map]

theorem colValues_updTable (t : Table) (i c : Nat) (v : String) (hc : c ≠ 0) :
    colValues (updTable t i c v) 0 = colValues t 0 := by
  have hmap : colValues (updTable t i c v) 0 =
      (colValues t 0).set i (getCell (setCell (t.getD i []) c v) 0) := by
    unfold updTable colValues
    rw [List.map_set]
  rw [hmap, getCell_setCell_ne _ _ _ _ (fun h => hc h.symm), ← colValues_getD]
  by_cases hi : i < t.length
  · exact set_getD_self (colValues t 0) i "" (by rw [colValues_length]; exact hi)
  · rw [List.set_eq_of_length_le]
    rw [colValues_length]
    omega

theorem update_ok (t : Table) (referral_id column_name new_value : String)
    (hmem : referral_id ∈ colValues t 0) (hcol : column_name ∈ headers t) :
    update_cell_by_referral_id t referral_id column_name new_value =
      Except.ok (updTable t ((colValues t 0).indexOf referral_id)
        ((headers t).indexOf column_name) new_value) := by
  simp only [update_cell_by_referral_id]
  rw [if_pos hmem, if_pos hcol]

theorem indexOf_le_of_getD (l : List String) (a : String) :
    ∀ j, j < l.length → l.getD j "" = a → l.indexOf a ≤ j := by
  induction l with
  | nil =>
      intro j hj _
      simp at hj
  | cons b l ih =>
      intro j hj h
      by_cases hba : b = a
      · rw [List.indexOf_cons_eq l hba]
        omega
      · cases j with
        | zero =>
            simp only [List.getD_cons_zero] at h
            exact absurd h hba
        | succ j =>
            rw [List.indexOf_cons_ne l hba]
            have hle := ih j (by simpa using hj) (by simpa using h)
            omega

/-- C10: update_cell_by_referral_id scans the whole first column from the
top, header row included: the write goes to the first (topmost) row whose
first cell matches the id, every other row is left untouched, and an id
equal to the first header cell targets row 0, the header row itself. -/
theorem update_first_match (t : Table) (referral_id column_name new_value : String)
    (hid : referral_id ∈ colValues t 0) (hcol : column_name ∈ headers t) :
    update_cell_by_referral_id t referral_id column_name new_value =
      Except.ok (updTable t ((colValues t 0).indexOf referral_id)
        ((headers t).indexOf column_name) new_value) ∧
    (∀ j, j < (colValues t 0).length → (colValues t 0).getD j "" = referral_id →
      (colValues t 0).indexOf referral_id ≤ j) ∧
    (∀ k, k ≠ (colValues t 0).indexOf referral_id →
      (updTable t ((colValues t 0).indexOf referral_id)
        ((headers t).indexOf column_name) new_value).getD k [] = t.getD k []) ∧
    (getCell (headers t) 0 = referral_id → (colValues t 0).indexOf referral_id = 0) := by
  refine ⟨update_ok t referral_id column_name new_value hid hcol, ?_, ?_, ?_⟩
  · intro j hj hval
    exact indexOf_le_of_getD (colValues t 0) referral_id j hj hval
  · intro k hk
    exact updTable_getD_ne t _ _ new_value k hk
  · intro hhead
    have hlen : 0 < (colValues t 0).length :=
      List.length_pos.mpr (List.ne_nil_of_mem hid)
    have hval : (colValues t 0).getD 0 "" = referral_id := by
      rw [colValues_getD]
      exact hhead
    have hle := indexOf_le_of_getD (colValues t 0) referral_id 0 hlen hval
    omega

/-- C10 witness: updating the duplicated id on dupTable touches only the
topmost matching row, and the theorem instance also covers the header-label
corner case. -/
theorem update_first_match_witness :
    "dup-1" ∈ colValues dupTable 0 ∧ "Gbagada Notes" ∈ headers dupTable ∧
    (update_cell_by_referral_id dupTable "dup-1" "Gbagada Notes" "seen" =
      Except.ok (updTable dupTable ((colValues dupTable 0).indexOf "dup-1")
        ((headers dupTable).indexOf "Gbagada Notes") "seen") ∧
    (∀ j, j < (colValues dupTable 0).length → (colValues dupTable 0).getD j "" = "dup-1" →
      (colValues dupTable 0).indexOf "dup-1" ≤ j) ∧
    (∀ k, k ≠ (colValues dupTable 0).indexOf "dup-1" →
      (updTable dupTable ((colValues dupTable 0).indexOf "dup-1")
        ((headers dupTable).indexOf "Gbagada Notes") "seen").getD k [] = dupTable.getD k []) ∧
    (getCell (headers dupTable) 0 = "dup-1" → (colValues dupTable 0).indexOf "dup-1" = 0)) :=
  ⟨by decide, by decide,
   update_first_match dupTable "dup-1" "Gbagada Notes" "seen" (by decide) (by decide)⟩

theorem headers_append_row (t : Table) (row : Row) (h : t ≠ []) :
    headers (t ++ [row]) = headers t := by
  cases t with
  | nil => exact absurd rfl h
  | cons r ts => rfl

theorem dataRows_append_row (t : Table) (row : Row) (h : t ≠ []) :
    dataRows (t ++ [row]) = dataRows t ++ [row] := by
  cases t with
  | nil => exact absurd rfl h
  | cons r ts => rfl

/-- C8: appending the row of a valid submission and loading all records
back yields one new record whose field values, keyed by the sheet headers,
are exactly the submitted values, the date of birth in YYYY-MM-DD form and
the referral timestamp in YYYY-MM-DD HH:MM:SS form. -/
theorem submit_round_trip (t : Table) (referral_id : String) (now : DateTime)
    (i : SubmitInput) (hhdr : headers t = standardHeaders) (hne : t ≠ [])
    (hv : validSubmission i = true) :
    ∃ dob row, i.patient_dob = some dob ∧
      phc_referral_form referral_id now.format i = (SubmitResult.ok row, [row]) ∧
      get_all_records (t ++ [row]) = get_all_records t ++ [mkRecord standardHeaders row] ∧
      (mkRecord standardHeaders row).lookup "Referral ID" = some referral_id ∧
      (mkRecord standardHeaders row).lookup "Patient Name" = some i.patient_name ∧
      (mkRecord standardHeaders row).lookup "Date of Birth" = some dob.format ∧
      (mkRecord standardHeaders row).lookup "Gender" = some i.patient_gender ∧
      (mkRecord standardHeaders row).lookup "Patient Contact" = some i.patient_contact ∧
      (mkRecord standardHeaders row).lookup "Referring PHC" = some i.referring_phc ∧
      (mkRecord standardHeaders row).lookup "Date/Time of Referral" = some now.format ∧
      (mkRecord standardHeaders row).lookup "Diagnosis/Reason for Referral" = some i.diagnosis ∧
      (mkRecord standardHeaders row).lookup "Referring Doctor" = some i.referring_doctor ∧
      (mkRecord standardHeaders row).lookup "Gbagada Acknowledged" = some "No" ∧
      (mkRecord standardHeaders row).lookup "Date/Time of Presentation" = some "" ∧
      (mkRecord standardHeaders row).lookup "Acknowledged By" = some "" ∧
      (mkRecord standardHeaders row).lookup "Gbagada Notes" = some "" := by
  have hsome : i.patient_dob.isSome = true := by
    have := hv
    unfold validSubmission at this
    simp only [Bool.and_eq_true] at this
    exact this.1.1.1.1.2
  obtain ⟨dob, hdob⟩ := Option.isSome_iff_exists.mp hsome
  refine ⟨dob, row_data referral_id i dob now.format, hdob, ?_, ?_, rfl, rfl, rfl, rfl,
    rfl, rfl, rfl, rfl, rfl, rfl, rfl, rfl, rfl⟩
  · unfold phc_referral_form
    rw [hv, hdob]
    simp
  · unfold get_all_records
    rw [headers_append_row t _ hne, dataRows_append_row t _ hne, hhdr, List.map_append]
    rfl

/-- C8 witness: the round trip of the Jane Doe submission over the sample
table. -/
theorem submit_round_trip_witness :
    headers sampleTable = standardHeaders ∧ sampleTable ≠ [] ∧
    validSubmission sampleInput = true ∧
    (∃ dob row, sampleInput.patient_dob = some dob ∧
      phc_referral_form "id-77"
          sampleStamp.format sampleInput =
        (SubmitResult.ok row, [row]) ∧
      get_all_records (sampleTable ++ [row]) =
        get_all_records sampleTable ++ [mkRecord standardHeaders row] ∧
      (mkRecord standardHeaders row).lookup "Referral ID" = some "id-77" ∧
      (mkRecord standardHeaders row).lookup "Patient Name" = some sampleInput.patient_name ∧
      (mkRecord standardHeaders row).lookup "Date of Birth" = some dob.format ∧
      (mkRecord standardHeaders row).lookup "Gender" = some sampleInput.patient_gender ∧
      (mkRecord standardHeaders row).lookup "Patient Contact" = some sampleInput.patient_contact ∧
      (mkRecord standardHeaders row).lookup "Referring PHC" = some sampleInput.referring_phc ∧
      (mkRecord standardHeaders row).lookup "Date/Time of Referral" =
        some (sampleStamp.format) ∧
      (mkRecord standardHeaders row).lookup "Diagnosis/Reason for Referral" =
        some sampleInput.diagnosis ∧
      (mkRecord standardHeaders row).lookup "Referring Doctor" =
        some sampleInput.referring_doctor ∧
      (mkRecord standardHeaders row).lookup "Gbagada Acknowledged" = some "No" ∧
      (mkRecord standardHeaders row).lookup "Date/Time of Presentation" = some "" ∧
      (mkRecord standardHeaders row).lookup "Acknowledged By" = some "" ∧
      (mkRecord standardHeaders row).lookup "Gbagada Notes" = some "") :=
  ⟨rfl, by decide, by decide,
   submit_round_trip sampleTable "id-77"
     sampleStamp
     sampleInput rfl (by decide) (by decide)⟩

theorem acknowledge_form_table_missing (t : Table)
    (referral_id time_of_presentation acknowledged_by gbagada_notes : String)
    (hgate : time_of_presentation = "" ∨ acknowledged_by = "") :
    (acknowledge_form t referral_id time_of_presentation acknowledged_by gbagada_notes).table = t := by
  unfold acknowledge_form
  rw [if_pos hgate]

theorem acknowledge_form_table_run (t : Table)
    (referral_id time_of_presentation acknowledged_by gbagada_notes : String)
    (hgate : ¬ (time_of_presentation = "" ∨ acknowledged_by = "")) :
    (acknowledge_form t referral_id time_of_presentation acknowledged_by gbagada_notes).table =
      (runUpdates t (ackCalls referral_id time_of_presentation acknowledged_by gbagada_notes)).1 := by
  unfold acknowledge_form
  rw [if_neg hgate]

theorem runStep_ok (acc : Table × List Bool) (c : String × String × String) (t2 : Table)
    (h : update_cell_by_referral_id acc.1 c.1 c.2.1 c.2.2 = Except.ok t2) :
    runStep acc c = (t2, acc.2 ++ [true]) := by
  unfold runStep
  rw [h]

/-- Under the standard header and a duplicate-free identifier column, the
acknowledge form with non-empty inputs rewrites the selected pending data
row in place: cell 9 becomes Yes and cells 10, 11, 12 receive the three
acknowledgment values, each of the four calls landing on that same row. -/
theorem acknowledge_form_std (t : Table)
    (referral_id time_of_presentation acknowledged_by gbagada_notes : String)
    (hhdr : headers t = standardHeaders) (hnd : (colValues t 0).Nodup)
    (hsel : referral_id ∈ pendingIds (headers t) (dataRows t))
    (hp : time_of_presentation ≠ "") (hb : acknowledged_by ≠ "") :
    ∃ rIdx, 1 ≤ rIdx ∧ rIdx < t.length ∧
      (colValues t 0).indexOf referral_id = rIdx ∧
      getCell (t.getD rIdx []) 9 = "No" ∧
      (acknowledge_form t referral_id time_of_presentation acknowledged_by gbagada_notes).table =
        updTable (updTable (updTable (updTable t rIdx 9 "Yes") rIdx 10 time_of_presentation)
          rIdx 11 acknowledged_by) rIdx 12 gbagada_notes := by
  have e0 : standardHeaders.indexOf "Referral ID" = 0 := by decide
  have e9 : standardHeaders.indexOf "Gbagada Acknowledged" = 9 := by decide
  have e10 : standardHeaders.indexOf "Date/Time of Presentation" = 10 := by decide
  have e11 : standardHeaders.indexOf "Acknowledged By" = 11 := by decide
  have e12 : standardHeaders.indexOf "Gbagada Notes" = 12 := by decide
  rw [hhdr] at hsel
  unfold pendingIds at hsel
  rw [List.mem_map] at hsel
  obtain ⟨r, hrmem, hrid⟩ := hsel
  unfold unacknowledged_df at hrmem
  rw [List.mem_filter] at hrmem
  obtain ⟨hrdata, hrNo⟩ := hrmem
  have hrid0 : getCell r 0 = referral_id := by
    unfold getField at hrid
    rw [e0] at hrid
    exact hrid
  have hrNo9 : getCell r 9 = "No" := by
    have := of_decide_eq_true (by exact hrNo)
    unfold getField at this
    rw [e9] at this
    exact this
  unfold dataRows at hrdata
  obtain ⟨j, hjlen, hjr⟩ := List.getElem_of_mem hrdata
  have hlt : 1 + j < t.length := by
    rw [List.length_drop] at hjlen
    omega
  have hrow : t[1 + j] = r := by
    have hq : (t.drop 1)[j]? = some r := by
      rw [List.getElem?_eq_getElem hjlen, hjr]
    rw [List.getElem?_drop, List.getElem?_eq_getElem hlt] at hq
    exact Option.some.inj hq
  have hcvlen : 1 + j < (colValues t 0).length := by
    rw [colValues_length]
    exact hlt
  have hcv : (colValues t 0)[1 + j] = referral_id := by
    unfold colValues
    rw [List.getElem_map, hrow, hrid0]
  have hmem1 : referral_id ∈ colValues t 0 := by
    have := List.getElem_mem hcvlen
    rw [hcv] at this
    exact this
  have hidx : (colValues t 0).indexOf referral_id = 1 + j := by
    have := List.indexOf_getElem hnd (1 + j) hcvlen
    rw [hcv] at this
    exact this
  have hgetD : t.getD (1 + j) [] = r := by
    rw [List.getD_eq_getElem?_getD, List.getElem?_eq_getElem hlt, hrow]
    rfl
  have hNo : getCell (t.getD (1 + j) []) 9 = "No" := by
    rw [hgetD]
    exact hrNo9
  refine ⟨1 + j, by omega, hlt, hidx, hNo, ?_⟩
  have hgate : ¬ (time_of_presentation = "" ∨ acknowledged_by = "") := by
    rintro (h | h)
    · exact hp h
    · exact hb h
  have h1le : (1 : Nat) ≤ 1 + j := by omega
  have hcol1 : "Gbagada Acknowledged" ∈ headers t := by
    rw [hhdr]
    decide
  have hu1 : update_cell_by_referral_id t referral_id "Gbagada Acknowledged" "Yes" =
      Except.ok (updTable t (1 + j) 9 "Yes") := by
    rw [update_ok t _ _ _ hmem1 hcol1, hidx, hhdr, e9]
  have hc1 : colValues (updTable t (1 + j) 9 "Yes") 0 = colValues t 0 :=
    colValues_updTable t (1 + j) 9 "Yes" (by omega)
  have hh1 : headers (updTable t (1 + j) 9 "Yes") = headers t :=
    headers_updTable t (1 + j) 9 "Yes" h1le
  have hmem2 : referral_id ∈ colValues (updTable t (1 + j) 9 "Yes") 0 := by
    rw [hc1]
    exact hmem1
  have hidx2 : (colValues (updTable t (1 + j) 9 "Yes") 0).indexOf referral_id = 1 + j := by
    rw [hc1]
    exact hidx
  have hcol2 : "Date/Time of Presentation" ∈ headers (updTable t (1 + j) 9 "Yes") := by
    rw [hh1, hhdr]
    decide
  have hu2 : update_cell_by_referral_id (updTable t (1 + j) 9 "Yes") referral_id
      "Date/Time of Presentation" time_of_presentation =
      Except.ok (updTable (updTable t (1 + j) 9 "Yes") (1 + j) 10 time_of_presentation) := by
    rw [update_ok _ _ _ _ hmem2 hcol2, hidx2, hh1, hhdr, e10]
  have hc2 : colValues (updTable (updTable t (1 + j) 9 "Yes") (1 + j) 10 time_of_presentation) 0 =
      colValues t 0 := by
    rw [colValues_updTable _ (1 + j) 10 time_of_presentation (by omega), hc1]
  have hh2 : headers (updTable (updTable t (1 + j) 9 "Yes") (1 + j) 10 time_of_presentation) =
      headers t := by
    rw [headers_updTable _ (1 + j) 10 time_of_presentation h1le, hh1]
  have hmem3 : referral_id ∈
      colValues (updTable (updTable t (1 + j) 9 "Yes") (1 + j) 10 time_of_presentation) 0 := by
    rw [hc2]
    exact hmem1
  have hidx3 : (colValues (updTable (updTable t (1 + j) 9 "Yes") (1 + j) 10
      time_of_presentation) 0).indexOf referral_id = 1 + j := by
    rw [hc2]
    exact hidx
  have hcol3 : "Acknowledged By" ∈
      headers (updTable (updTable t (1 + j) 9 "Yes") (1 + j) 10 time_of_presentation) := by
    rw [hh2, hhdr]
    decide
  have hu3 : update_cell_by_referral_id
      (updTable (updTable t (1 + j) 9 "Yes") (1 + j) 10 time_of_presentation) referral_id
      "Acknowledged By" acknowledged_by =
      Except.ok (updTable (updTable (updTable t (1 + j) 9 "Yes") (1 + j) 10 time_of_presentation)
        (1 + j) 11 acknowledged_by) := by
    rw [update_ok _ _ _ _ hmem3 hcol3, hidx3, hh2, hhdr, e11]
  have hc3 : colValues (updTable (updTable (updTable t (1 + j) 9 "Yes") (1 + j) 10
      time_of_presentation) (1 + j) 11 acknowledged_by) 0 = colValues t 0 := by
    rw [colValues_updTable _ (1 + j) 11 acknowledged_by (by omega), hc2]
  have hh3 : headers (updTable (updTable (updTable t (1 + j) 9 "Yes") (1 + j) 10
      time_of_presentation) (1 + j) 11 acknowledged_by) = headers t := by
    rw [headers_updTable _ (1 + j) 11 acknowledged_by h1le, hh2]
  have hmem4 : referral_id ∈ colValues (updTable (updTable (updTable t (1 + j) 9 "Yes")
      (1 + j) 10 time_of_presentation) (1 + j) 11 acknowledged_by) 0 := by
    rw [hc3]
    exact hmem1
  have hidx4 : (colValues (updTable (updTable (updTable t (1 + j) 9 "Yes") (1 + j) 10
      time_of_presentation) (1 + j) 11 acknowledged_by) 0).indexOf referral_id = 1 + j := by
    rw [hc3]
    exact hidx
  have hcol4 : "Gbagada Notes" ∈ headers (updTable (updTable (updTable t (1 + j) 9 "Yes")
      (1 + j) 10 time_of_presentation) (1 + j) 11 acknowledged_by) := by
    rw [hh3, hhdr]
    decide
  have hu4 : update_cell_by_referral_id
      (updTable (updTable (updTable t (1 + j) 9 "Yes") (1 + j) 10 time_of_presentation)
        (1 + j) 11 acknowledged_by) referral_id "Gbagada Notes" gbagada_notes =
      Except.ok (updTable (updTable (updTable (updTable t (1 + j) 9 "Yes") (1 + j) 10
        time_of_presentation) (1 + j) 11 acknowledged_by) (1 + j) 12 gbagada_notes) := by
    rw [update_ok _ _ _ _ hmem4 hcol4, hidx4, hh3, hhdr, e12]
  have s1 : runStep (t, []) (referral_id, "Gbagada Acknowledged", "Yes") =
      (updTable t (1 + j) 9 "Yes", [true]) := by
    rw [runStep_ok _ _ _ hu1]
    rfl
  have s2 : runStep (updTable t (1 + j) 9 "Yes", [true])
      (referral_id, "Date/Time of Presentation", time_of_presentation) =
      (updTable (updTable t (1 + j) 9 "Yes") (1 + j) 10 time_of_presentation, [true, true]) := by
    rw [runStep_ok _ _ _ hu2]
    rfl
  have s3 : runStep (updTable (updTable t (1 + j) 9 "Yes") (1 + j) 10 time_of_presentation,
        [true, true]) (referral_id, "Acknowledged By", acknowledged_by) =
      (updTable (updTable (updTable t (1 + j) 9 "Yes") (1 + j) 10 time_of_presentation)
        (1 + j) 11 acknowledged_by, [true, true, true]) := by
    rw [runStep_ok _ _ _ hu3]
    rfl
  have s4 : runStep (updTable (updTable (updTable t (1 + j) 9 "Yes") (1 + j) 10
        time_of_presentation) (1 + j) 11 acknowledged_by, [true, true, true])
      (referral_id, "Gbagada Notes", gbagada_notes) =
      (updTable (updTable (updTable (updTable t (1 + j) 9 "Yes") (1 + j) 10
        time_of_presentation) (1 + j) 11 acknowledged_by) (1 + j) 12 gbagada_notes,
       [true, true, true, true]) := by
    rw [runStep_ok _ _ _ hu4]
    rfl
  rw [acknowledge_form_table_run t _ _ _ _ hgate]
  simp only [runUpdates, ackCalls, List.foldl_cons, List.foldl_nil]
  rw [s1, s2, s3, s4]

/-- C7: under one submit or acknowledge interaction on a standard-header
table with a duplicate-free identifier column, the acknowledged field of
an existing data row either keeps its value or moves from No to Yes; it
never moves from Yes to No. -/
theorem acknowledged_monotone (t t2 : Table) (hstep : Step t t2)
    (hhdr : headers t = standardHeaders) (hnd : (colValues t 0).Nodup)
    (j : Nat) (hj : j < t.length) (hj0 : j ≠ 0) :
    getField standardHeaders (t2.getD j []) "Gbagada Acknowledged" =
      getField standardHeaders (t.getD j []) "Gbagada Acknowledged" ∨
    (getField standardHeaders (t.getD j []) "Gbagada Acknowledged" = "No" ∧
     getField standardHeaders (t2.getD j []) "Gbagada Acknowledged" = "Yes") := by
  have e9 : standardHeaders.indexOf "Gbagada Acknowledged" = 9 := by decide
  have hgf : ∀ r : Row, getField standardHeaders r "Gbagada Acknowledged" = getCell r 9 := by
    intro r
    unfold getField
    rw [e9]
  rw [hgf (t2.getD j []), hgf (t.getD j [])]
  cases hstep with
  | submit referral_id referral_datetime i row hform =>
      left
      rw [List.getD_append _ _ _ _ hj]
  | ack referral_id time_of_presentation acknowledged_by gbagada_notes hsel =>
      by_cases hgate : time_of_presentation = "" ∨ acknowledged_by = ""
      · left
        rw [acknowledge_form_table_missing t _ _ _ _ hgate]
      · obtain ⟨rIdx, h1le, hlen, hidx, hNoCell, htab⟩ :=
          acknowledge_form_std t referral_id time_of_presentation acknowledged_by
            gbagada_notes hhdr hnd hsel (fun h => hgate (Or.inl h)) (fun h => hgate (Or.inr h))
        rw [htab]
        by_cases hjr : j = rIdx
        · subst hjr
          right
          refine ⟨hNoCell, ?_⟩
          have l1 : (updTable t j 9 "Yes").length = t.length := length_updTable t j 9 "Yes"
          have l2 : (updTable (updTable t j 9 "Yes") j 10 time_of_presentation).length =
              t.length := by
            rw [length_updTable, l1]
          have l3 : (updTable (updTable (updTable t j 9 "Yes") j 10 time_of_presentation)
              j 11 acknowledged_by).length = t.length := by
            rw [length_updTable, l2]
          rw [updTable_getD_self _ _ _ _ (by rw [l3]; exact hlen)]
          rw [getCell_setCell_ne _ _ _ _ (by omega)]
          rw [updTable_getD_self _ _ _ _ (by rw [l2]; exact hlen)]
          rw [getCell_setCell_ne _ _ _ _ (by omega)]
          rw [updTable_getD_self _ _ _ _ (by rw [l1]; exact hlen)]
          rw [getCell_setCell_ne _ _ _ _ (by omega)]
          rw [updTable_getD_self _ _ _ _ hlen]
          rw [getCell_setCell_eq]
        · left
          rw [updTable_getD_ne _ _ _ _ _ hjr, updTable_getD_ne _ _ _ _ _ hjr,
            updTable_getD_ne _ _ _ _ _ hjr, updTable_getD_ne _ _ _ _ _ hjr]

/-- C7 witness: the theorem applied to acknowledging the sample pending
referral on the sample table, observed at its data row. -/
theorem acknowledged_monotone_witness :
    headers sampleTable = standardHeaders ∧ (colValues sampleTable 0).Nodup ∧
    1 < sampleTable.length ∧ (1 : Nat) ≠ 0 ∧
    (getField standardHeaders
        (((acknowledge_form sampleTable "abc-123" "2024-01-01 10:00:00" "Nurse A"
          "fine").table).getD 1 []) "Gbagada Acknowledged" =
      getField standardHeaders (sampleTable.getD 1 []) "Gbagada Acknowledged" ∨
    (getField standardHeaders (sampleTable.getD 1 []) "Gbagada Acknowledged" = "No" ∧
     getField standardHeaders
        (((acknowledge_form sampleTable "abc-123" "2024-01-01 10:00:00" "Nurse A"
          "fine").table).getD 1 []) "Gbagada Acknowledged" = "Yes")) :=
  ⟨rfl, by decide, by decide, by decide,
   acknowledged_monotone sampleTable
     (acknowledge_form sampleTable "abc-123" "2024-01-01 10:00:00" "Nurse A" "fine").table
     (Step.ack sampleTable "abc-123" "2024-01-01 10:00:00" "Nurse A" "fine" (by decide))
     rfl (by decide) 1 (by decide) (by decide)⟩

end Referral
